import Mathlib

/-!
Shallow embedding of `src/utils/lotteryGenerators.ts`.

The TypeScript core consists of:
* `getRandomNumber(min, max)` = `Math.floor(Math.random() * (max - min + 1)) + min`,
  modelled here by `getRandomNumber` taking the raw `Math.random()` output as a
  rational `r` with `0 ≤ r < 1`;
* `generateUniqueNumbers(count, min, max)`: a `while (numbers.size < count)` loop
  inserting sampled values into a `Set`, then `Array.from(...).sort((a, b) => a - b)`.
  The loop can diverge, so the embedding threads explicit fuel and returns `Option`;
* `generatePowerballTicket()` and `generateMegaMillionsTicket()`: assemble a record
  from a unique set, one special number and a multiplier picked by indexing a fixed
  option list at a sampled index.

Randomness is modelled as an abstract sampler stream `rnd : ℕ → ℤ → ℤ → ℤ`
(call index, lower bound, upper bound ↦ drawn value); each sampler call consumes
one index.  `validRnd` states the Number Sampler contract (result within bounds).
JS array indexing (which yields `undefined` out of range) is embedded as the
`Option`-returning `listIndex`.
-/

/-- The raw result of one `Math.random()` call: a rational in `[0, 1)`. -/
def validRandom (r : ℚ) : Prop := 0 ≤ r ∧ r < 1

/-- `getRandomNumber(min, max)` from the source:
`Math.floor(Math.random() * (max - min + 1)) + min`, with the `Math.random()`
output passed explicitly as `r`. -/
def getRandomNumber (r : ℚ) (lo hi : ℤ) : ℤ :=
  ⌊r * ((hi - lo + 1 : ℤ) : ℚ)⌋ + lo

/-- A sampler stream: call index, inclusive bounds ↦ drawn value. -/
def Rnd : Type := ℕ → ℤ → ℤ → ℤ

/-- The Number Sampler contract: every draw lies within the requested
inclusive bounds (whenever the bounds are well formed). -/
def validRnd (rnd : Rnd) : Prop :=
  ∀ (i : ℕ) (lo hi : ℤ), lo ≤ hi → lo ≤ rnd i lo hi ∧ rnd i lo hi ≤ hi

/-- `numbers.add(x)` on a JS `Set` held as its insertion-order list:
appends `x` unless already present. -/
def setInsert (l : List ℤ) (x : ℤ) : List ℤ :=
  if x ∈ l then l else l ++ [x]

/-- The `while (numbers.size < count)` loop of `generateUniqueNumbers`,
with explicit fuel (`none` = the loop has not terminated within `fuel`
iterations).  `i` is the index of the next sampler call; the result pairs the
accumulated insertion-order list with the next unused sampler index. -/
def generateUniqueNumbersAux (rnd : Rnd) (count lo hi : ℤ) :
    ℕ → ℕ → List ℤ → Option (List ℤ × ℕ)
  | fuel, i, acc =>
    if (acc.length : ℤ) < count then
      match fuel with
      | 0 => none
      | fuel' + 1 =>
          generateUniqueNumbersAux rnd count lo hi fuel' (i + 1)
            (setInsert acc (rnd i lo hi))
    else some (acc, i)

/-- `generateUniqueNumbers(count, min, max)`: run the sampling loop from the
empty set, then `Array.from(numbers).sort((a, b) => a - b)` (ascending numeric
sort).  Returns the sorted list together with the next unused sampler index. -/
def generateUniqueNumbers (rnd : Rnd) (count lo hi : ℤ) (fuel i : ℕ) :
    Option (List ℤ × ℕ) :=
  match generateUniqueNumbersAux rnd count lo hi fuel i [] with
  | none => none
  | some (l, j) => some (List.insertionSort (· ≤ ·) l, j)

/-- JS array indexing `l[idx]`: `undefined` (here `none`) when `idx` is
negative or past the end. -/
def listIndex (l : List ℤ) (idx : ℤ) : Option ℤ :=
  if h : 0 ≤ idx ∧ idx.toNat < l.length then some (l.get ⟨idx.toNat, h.2⟩)
  else none

/-- The `PowerballTicket` interface. -/
structure PowerballTicket where
  numbers : List ℤ
  powerball : ℤ
  powerPlay : ℤ
  deriving DecidableEq, Repr

/-- The `MegaMillionsTicket` interface. -/
structure MegaMillionsTicket where
  numbers : List ℤ
  megaBall : ℤ
  megaplier : ℤ
  deriving DecidableEq, Repr

/-- `const powerPlayOptions = [2, 3, 4, 5, 10]`. -/
def powerPlayOptions : List ℤ := [2, 3, 4, 5, 10]

/-- `const megaplierOptions = [2, 3, 4, 5]`. -/
def megaplierOptions : List ℤ := [2, 3, 4, 5]

/-- `generatePowerballTicket()`: 5 unique numbers from 1–69, a powerball from
1–26, and `powerPlayOptions[getRandomNumber(0, powerPlayOptions.length - 1)]`.
`none` when the unique-number loop exhausts its fuel or the option indexing
falls out of range. -/
def generatePowerballTicket (rnd : Rnd) (fuel : ℕ) : Option PowerballTicket :=
  match generateUniqueNumbers rnd 5 1 69 fuel 0 with
  | none => none
  | some (numbers, j) =>
      let powerball := rnd j 1 26
      let idx := rnd (j + 1) 0 ((powerPlayOptions.length : ℤ) - 1)
      match listIndex powerPlayOptions idx with
      | none => none
      | some powerPlay => some ⟨numbers, powerball, powerPlay⟩

/-- `generateMegaMillionsTicket()`: 5 unique numbers from 1–70, a megaBall from
1–25, and `megaplierOptions[getRandomNumber(0, megaplierOptions.length - 1)]`. -/
def generateMegaMillionsTicket (rnd : Rnd) (fuel : ℕ) : Option MegaMillionsTicket :=
  match generateUniqueNumbers rnd 5 1 70 fuel 0 with
  | none => none
  | some (numbers, j) =>
      let megaBall := rnd j 1 25
      let idx := rnd (j + 1) 0 ((megaplierOptions.length : ℤ) - 1)
      match listIndex megaplierOptions idx with
      | none => none
      | some megaplier => some ⟨numbers, megaBall, megaplier⟩

/-- A concrete bounds-respecting sampler used to instantiate hypotheses:
call `i` with bounds `[lo, hi]` returns `lo + i` clamped to `hi`. -/
def stepRnd : Rnd := fun i lo hi => if lo + (i : ℤ) ≤ hi then lo + (i : ℤ) else hi

/-- The mocked randomness sequence `[5, 12, 23, 45, 67, 15, 3]` of the spec's
example scenario, as a sampler that ignores its bounds. -/
def mockRnd : Rnd := fun i _ _ => ([5, 12, 23, 45, 67, 15, 3].getD i 0 : ℤ)

/-- A syntactically different sampler producing the same draws as `mockRnd`,
used to instantiate the determinism property with two distinct runs. -/
def mockRnd2 : Rnd := fun i lo hi => mockRnd i lo hi + 0

/-! ### Basic lemmas about the embedded primitives -/

lemma mem_setInsert (l : List ℤ) (y x : ℤ) :
    x ∈ setInsert l y ↔ x ∈ l ∨ x = y := by
  unfold setInsert
  split
  · next hy => constructor
               · exact Or.inl
               · rintro (hx | rfl)
                 · exact hx
                 · exact hy
  · simp [List.mem_append]

lemma nodup_setInsert (l : List ℤ) (y : ℤ) (h : l.Nodup) :
    (setInsert l y).Nodup := by
  unfold setInsert
  split
  · exact h
  · next hy => simpa [List.nodup_append] using ⟨h, hy⟩

lemma length_setInsert_le (l : List ℤ) (y : ℤ) :
    (setInsert l y).length ≤ l.length + 1 := by
  unfold setInsert
  split <;> simp

/-- Unfolding equation for one step of the sampling loop. -/
lemma generateUniqueNumbersAux_eq (rnd : Rnd) (count lo hi : ℤ)
    (fuel i : ℕ) (acc : List ℤ) :
    generateUniqueNumbersAux rnd count lo hi fuel i acc =
      if (acc.length : ℤ) < count then
        match fuel with
        | 0 => none
        | fuel' + 1 =>
            generateUniqueNumbersAux rnd count lo hi fuel' (i + 1)
              (setInsert acc (rnd i lo hi))
      else some (acc, i) := by
  cases fuel <;> rfl

/-- Loop invariant for the sampling loop: starting from a duplicate-free
accumulator no longer than `count`, a terminating run yields a duplicate-free
list of exactly `count` elements, each either from the initial accumulator or
produced by some sampler call with the loop's bounds. -/
lemma generateUniqueNumbersAux_spec (rnd : Rnd) (count lo hi : ℤ) :
    ∀ (fuel i : ℕ) (acc l : List ℤ) (j : ℕ),
      generateUniqueNumbersAux rnd count lo hi fuel i acc = some (l, j) →
      acc.Nodup → (acc.length : ℤ) ≤ count →
      l.Nodup ∧ (l.length : ℤ) = count ∧
        ∀ x ∈ l, x ∈ acc ∨ ∃ k, x = rnd k lo hi := by
  intro fuel
  induction fuel with
  | zero =>
      intro i acc l j h hnd hlen
      rw [generateUniqueNumbersAux_eq] at h
      split at h
      · exact absurd h (by simp)
      · next hcond =>
          obtain ⟨rfl, rfl⟩ : acc = l ∧ i = j := by
            simpa using h
          exact ⟨hnd, by omega, fun x hx => Or.inl hx⟩
  | succ fuel ih =>
      intro i acc l j h hnd hlen
      rw [generateUniqueNumbersAux_eq] at h
      split at h
      · next hcond =>
          have hnd' : (setInsert acc (rnd i lo hi)).Nodup :=
            nodup_setInsert _ _ hnd
          have hlen' : ((setInsert acc (rnd i lo hi)).length : ℤ) ≤ count := by
            have := length_setInsert_le acc (rnd i lo hi)
            omega
          obtain ⟨h1, h2, h3⟩ := ih (i + 1) _ l j h hnd' hlen'
          refine ⟨h1, h2, fun x hx => ?_⟩
          rcases h3 x hx with hmem | hk
          · rcases (mem_setInsert _ _ _).mp hmem with hmem | rfl
            · exact Or.inl hmem
            · exact Or.inr ⟨i, rfl⟩
          · exact Or.inr hk
      · next hcond =>
          obtain ⟨rfl, rfl⟩ : acc = l ∧ i = j := by
            simpa using h
          exact ⟨hnd, by omega, fun x hx => Or.inl hx⟩

/-- Specification of `generateUniqueNumbers` on a terminating run: the result
is sorted, duplicate-free, has exactly `count` elements, and every element is
some sampler draw with bounds `[lo, hi]`. -/
lemma generateUniqueNumbers_spec (rnd : Rnd) (count lo hi : ℤ) (fuel i : ℕ)
    (l : List ℤ) (j : ℕ)
    (h : generateUniqueNumbers rnd count lo hi fuel i = some (l, j))
    (hc : 0 ≤ count) :
    l.Sorted (· ≤ ·) ∧ l.Nodup ∧ (l.length : ℤ) = count ∧
      ∀ x ∈ l, ∃ k, x = rnd k lo hi := by
  unfold generateUniqueNumbers at h
  split at h
  · exact absurd h (by simp)
  · next l0 j0 heq =>
      obtain ⟨rfl, rfl⟩ : List.insertionSort (· ≤ ·) l0 = l ∧ j0 = j := by
        simpa using h
      obtain ⟨hnd, hlen, hmem⟩ :=
        generateUniqueNumbersAux_spec rnd count lo hi fuel i [] l0 j0 heq
          List.nodup_nil (by simpa using hc)
      have hperm := List.perm_insertionSort (· ≤ ·) l0
      refine ⟨List.sorted_insertionSort _ l0, hperm.nodup_iff.mpr hnd, ?_, ?_⟩
      · rw [hperm.length_eq]; exact hlen
      · intro x hx
        rcases hmem x (hperm.mem_iff.mp hx) with hx0 | hk
        · simp at hx0
        · exact hk

/-- A successful `listIndex` lookup returns an element of the list. -/
lemma listIndex_mem (l : List ℤ) (idx x : ℤ) (h : listIndex l idx = some x) :
    x ∈ l := by
  unfold listIndex at h
  split at h
  · next hb =>
      obtain rfl : l.get ⟨idx.toNat, hb.2⟩ = x := by simpa using h
      exact List.get_mem l idx.toNat hb.2
  · exact absurd h (by simp)

/-- `listIndex` succeeds on every in-range index and returns a list element. -/
lemma listIndex_isSome (l : List ℤ) (idx : ℤ) (h0 : 0 ≤ idx)
    (h1 : idx ≤ (l.length : ℤ) - 1) :
    ∃ x, listIndex l idx = some x ∧ x ∈ l := by
  have hb : 0 ≤ idx ∧ idx.toNat < l.length := ⟨h0, by omega⟩
  refine ⟨l.get ⟨idx.toNat, hb.2⟩, ?_, List.get_mem l idx.toNat hb.2⟩
  unfold listIndex
  rw [dif_pos hb]

/-- The embedded `getRandomNumber` stays within its inclusive bounds for every
raw `Math.random()` output in `[0, 1)`. -/
lemma getRandomNumber_mem (r : ℚ) (lo hi : ℤ) (hr : validRandom r)
    (hlh : lo ≤ hi) :
    lo ≤ getRandomNumber r lo hi ∧ getRandomNumber r lo hi ≤ hi := by
  obtain ⟨h0, h1⟩ := hr
  unfold getRandomNumber
  have hnpos : (0 : ℤ) < hi - lo + 1 := by omega
  have hnq : (0 : ℚ) < ((hi - lo + 1 : ℤ) : ℚ) := by exact_mod_cast hnpos
  have hge : (0 : ℚ) ≤ r * ((hi - lo + 1 : ℤ) : ℚ) := mul_nonneg h0 hnq.le
  have hlt : r * ((hi - lo + 1 : ℤ) : ℚ) < ((hi - lo + 1 : ℤ) : ℚ) := by
    calc r * ((hi - lo + 1 : ℤ) : ℚ) < 1 * ((hi - lo + 1 : ℤ) : ℚ) :=
          mul_lt_mul_of_pos_right h1 hnq
      _ = ((hi - lo + 1 : ℤ) : ℚ) := one_mul _
  have hf0 : 0 ≤ ⌊r * ((hi - lo + 1 : ℤ) : ℚ)⌋ := Int.floor_nonneg.mpr hge
  have hfn : ⌊r * ((hi - lo + 1 : ℤ) : ℚ)⌋ < hi - lo + 1 := Int.floor_lt.mpr hlt
  omega

/-- The real composition: feeding a stream of raw `Math.random()` outputs in
`[0, 1)` through `getRandomNumber` yields a bounds-respecting sampler. -/
lemma validRnd_of_randomStream (q : ℕ → ℚ) (hq : ∀ i, validRandom (q i)) :
    validRnd (fun i lo hi => getRandomNumber (q i) lo hi) :=
  fun i lo hi hlh => getRandomNumber_mem (q i) lo hi (hq i) hlh

/-- The concrete sampler `stepRnd` respects the sampler contract. -/
lemma validRnd_stepRnd : validRnd stepRnd := by
  intro i lo hi hlh
  unfold stepRnd
  split <;> omega

/-- A duplicate-free list of integers all lying in `[lo, hi]` has at most
`hi - lo + 1` elements. -/
lemma length_le_of_nodup_mem_Icc (acc : List ℤ) (lo hi : ℤ) (hlh : lo ≤ hi)
    (hnd : acc.Nodup) (hmem : ∀ x ∈ acc, lo ≤ x ∧ x ≤ hi) :
    (acc.length : ℤ) ≤ hi - lo + 1 := by
  classical
  have hsub : acc.toFinset ⊆ Finset.Icc lo hi := by
    intro x hx
    rw [List.mem_toFinset] at hx
    exact Finset.mem_Icc.mpr (hmem x hx)
  have hcard := Finset.card_le_card hsub
  rw [List.toFinset_card_of_nodup hnd, Int.card_Icc] at hcard
  omega

/-- When the pool `[lo, hi]` holds fewer than `count` integers, the sampling
loop never reaches `count` distinct values: it consumes all its fuel from any
duplicate-free in-range accumulator. -/
lemma generateUniqueNumbersAux_none (rnd : Rnd) (h : validRnd rnd)
    (count lo hi : ℤ) (hlh : lo ≤ hi) (hbig : hi - lo + 1 < count) :
    ∀ (fuel i : ℕ) (acc : List ℤ), acc.Nodup → (∀ x ∈ acc, lo ≤ x ∧ x ≤ hi) →
      generateUniqueNumbersAux rnd count lo hi fuel i acc = none := by
  intro fuel
  induction fuel with
  | zero =>
      intro i acc hnd hmem
      rw [generateUniqueNumbersAux_eq]
      have hlen := length_le_of_nodup_mem_Icc acc lo hi hlh hnd hmem
      rw [if_pos (by omega)]
  | succ fuel ih =>
      intro i acc hnd hmem
      rw [generateUniqueNumbersAux_eq]
      have hlen := length_le_of_nodup_mem_Icc acc lo hi hlh hnd hmem
      rw [if_pos (by omega)]
      refine ih (i + 1) _ (nodup_setInsert _ _ hnd) ?_
      intro x hx
      rcases (mem_setInsert _ _ _).mp hx with hx' | rfl
      · exact hmem x hx'
      · exact h i lo hi hlh

/-! ### Claim theorems -/

/-- C1: every successful run of `generatePowerballTicket` with a
bounds-respecting sampler yields a ticket whose `numbers` has exactly 5
elements, is strictly ascending with every element in `[1, 69]`, whose
`powerball` lies in `[1, 26]`, and whose `powerPlay` is one of
`{2, 3, 4, 5, 10}`. -/
theorem powerball_ticket_wellFormed (rnd : Rnd) (h : validRnd rnd) (fuel : ℕ)
    (t : PowerballTicket) (ht : generatePowerballTicket rnd fuel = some t) :
    t.numbers.length = 5 ∧ t.numbers.Sorted (· < ·) ∧
      (∀ x ∈ t.numbers, 1 ≤ x ∧ x ≤ 69) ∧
      1 ≤ t.powerball ∧ t.powerball ≤ 26 ∧
      t.powerPlay ∈ ([2, 3, 4, 5, 10] : List ℤ) := by
  unfold generatePowerballTicket at ht
  split at ht
  · exact absurd ht (by simp)
  · next numbers j heq =>
      obtain ⟨hsort, hnd, hlen, hdraw⟩ :=
        generateUniqueNumbers_spec rnd 5 1 69 fuel 0 numbers j heq (by norm_num)
      dsimp only at ht
      split at ht
      · exact absurd ht (by simp)
      · next pp hpp =>
          obtain rfl : (⟨numbers, rnd j 1 26, pp⟩ : PowerballTicket) = t := by
            simpa using ht
          refine ⟨by exact_mod_cast hlen, hsort.lt_of_le hnd, ?_, ?_, ?_, ?_⟩
          · intro x hx
            rcases hdraw x hx with ⟨k, rfl⟩
            exact h k 1 69 (by norm_num)
          · exact (h j 1 26 (by norm_num)).1
          · exact (h j 1 26 (by norm_num)).2
          · have := listIndex_mem powerPlayOptions _ pp hpp
            simpa [powerPlayOptions] using this

/-- Witness for C1 at the concrete sampler `stepRnd` with fuel 10. -/
theorem powerball_ticket_wellFormed_witness :
    validRnd stepRnd ∧
      generatePowerballTicket stepRnd 10 = some ⟨[1, 2, 3, 4, 5], 6, 10⟩ ∧
      (([1, 2, 3, 4, 5] : List ℤ).length = 5 ∧
        ([1, 2, 3, 4, 5] : List ℤ).Sorted (· < ·) ∧
        (∀ x ∈ ([1, 2, 3, 4, 5] : List ℤ), 1 ≤ x ∧ x ≤ 69) ∧
        (1 : ℤ) ≤ 6 ∧ (6 : ℤ) ≤ 26 ∧ (10 : ℤ) ∈ ([2, 3, 4, 5, 10] : List ℤ)) :=
  ⟨validRnd_stepRnd, by decide,
    powerball_ticket_wellFormed stepRnd validRnd_stepRnd 10
      ⟨[1, 2, 3, 4, 5], 6, 10⟩ (by decide)⟩

/-- C2: every successful run of `generateMegaMillionsTicket` with a
bounds-respecting sampler yields a ticket whose `numbers` has exactly 5
elements, is strictly ascending with every element in `[1, 70]`, whose
`megaBall` lies in `[1, 25]`, and whose `megaplier` is one of
`{2, 3, 4, 5}`. -/
theorem megaMillions_ticket_wellFormed (rnd : Rnd) (h : validRnd rnd) (fuel : ℕ)
    (t : MegaMillionsTicket) (ht : generateMegaMillionsTicket rnd fuel = some t) :
    t.numbers.length = 5 ∧ t.numbers.Sorted (· < ·) ∧
      (∀ x ∈ t.numbers, 1 ≤ x ∧ x ≤ 70) ∧
      1 ≤ t.megaBall ∧ t.megaBall ≤ 25 ∧
      t.megaplier ∈ ([2, 3, 4, 5] : List ℤ) := by
  unfold generateMegaMillionsTicket at ht
  split at ht
  · exact absurd ht (by simp)
  · next numbers j heq =>
      obtain ⟨hsort, hnd, hlen, hdraw⟩ :=
        generateUniqueNumbers_spec rnd 5 1 70 fuel 0 numbers j heq (by norm_num)
      dsimp only at ht
      split at ht
      · exact absurd ht (by simp)
      · next mp hmp =>
          obtain rfl : (⟨numbers, rnd j 1 25, mp⟩ : MegaMillionsTicket) = t := by
            simpa using ht
          refine ⟨by exact_mod_cast hlen, hsort.lt_of_le hnd, ?_, ?_, ?_, ?_⟩
          · intro x hx
            rcases hdraw x hx with ⟨k, rfl⟩
            exact h k 1 70 (by norm_num)
          · exact (h j 1 25 (by norm_num)).1
          · exact (h j 1 25 (by norm_num)).2
          · have := listIndex_mem megaplierOptions _ mp hmp
            simpa [megaplierOptions] using this

/-- Witness for C2 at the concrete sampler `stepRnd` with fuel 10. -/
theorem megaMillions_ticket_wellFormed_witness :
    validRnd stepRnd ∧
      generateMegaMillionsTicket stepRnd 10 = some ⟨[1, 2, 3, 4, 5], 6, 5⟩ ∧
      (([1, 2, 3, 4, 5] : List ℤ).length = 5 ∧
        ([1, 2, 3, 4, 5] : List ℤ).Sorted (· < ·) ∧
        (∀ x ∈ ([1, 2, 3, 4, 5] : List ℤ), 1 ≤ x ∧ x ≤ 70) ∧
        (1 : ℤ) ≤ 6 ∧ (6 : ℤ) ≤ 25 ∧ (5 : ℤ) ∈ ([2, 3, 4, 5] : List ℤ)) :=
  ⟨validRnd_stepRnd, by decide,
    megaMillions_ticket_wellFormed stepRnd validRnd_stepRnd 10
      ⟨[1, 2, 3, 4, 5], 6, 5⟩ (by decide)⟩

/-- C3: for a requested `count` and inclusive bounds `lo ≤ hi` with a pool of
at least `count` values, a terminating run of `generateUniqueNumbers` under a
bounds-respecting sampler yields exactly `count` pairwise-distinct integers,
each within `[lo, hi]`, in ascending numeric order. -/
theorem generateUniqueNumbers_contract (rnd : Rnd) (h : validRnd rnd)
    (count : ℕ) (lo hi : ℤ) (hlh : lo ≤ hi)
    (_hpool : (count : ℤ) ≤ hi - lo + 1) (fuel i : ℕ) (l : List ℤ) (j : ℕ)
    (hg : generateUniqueNumbers rnd (count : ℤ) lo hi fuel i = some (l, j)) :
    l.length = count ∧ l.Nodup ∧ l.Sorted (· ≤ ·) ∧
      ∀ x ∈ l, lo ≤ x ∧ x ≤ hi := by
  obtain ⟨hsort, hnd, hlen, hdraw⟩ :=
    generateUniqueNumbers_spec rnd (count : ℤ) lo hi fuel i l j hg
      (by exact_mod_cast Nat.zero_le count)
  refine ⟨by exact_mod_cast hlen, hnd, hsort, ?_⟩
  intro x hx
  rcases hdraw x hx with ⟨k, rfl⟩
  exact h k lo hi hlh

/-- Witness for C3 at `stepRnd`, `count = 3`, bounds `[1, 10]`, fuel 5. -/
theorem generateUniqueNumbers_contract_witness :
    validRnd stepRnd ∧ (1 : ℤ) ≤ 10 ∧ ((3 : ℕ) : ℤ) ≤ 10 - 1 + 1 ∧
      generateUniqueNumbers stepRnd ((3 : ℕ) : ℤ) 1 10 5 0 = some ([1, 2, 3], 3) ∧
      (([1, 2, 3] : List ℤ).length = 3 ∧ ([1, 2, 3] : List ℤ).Nodup ∧
        ([1, 2, 3] : List ℤ).Sorted (· ≤ ·) ∧
        ∀ x ∈ ([1, 2, 3] : List ℤ), 1 ≤ x ∧ x ≤ 10) :=
  ⟨validRnd_stepRnd, by norm_num, by norm_num, by decide,
    generateUniqueNumbers_contract stepRnd validRnd_stepRnd 3 1 10 (by norm_num)
      (by norm_num) 5 0 [1, 2, 3] 3 (by decide)⟩

/-- C4 (counterexample): `generateUniqueNumbers` performs no pool-size check
and raises no error.  With `count = 2` drawn from the single-value pool
`[1, 1]` under the bounds-respecting sampler `stepRnd`, the loop is still
running after 100 iterations — it has not failed fast. -/
theorem generateUniqueNumbers_no_failFast_cex :
    generateUniqueNumbers stepRnd 2 1 1 100 0 = none := by decide

/-- C4 (amended): the code does not check the malformed-parameter condition;
whenever `count > hi - lo + 1` (with `lo ≤ hi` and a bounds-respecting
sampler) the loop never accumulates `count` distinct values and so never
returns — for every fuel bound the run is still unfinished. -/
theorem generateUniqueNumbers_diverges_on_small_pool (rnd : Rnd)
    (h : validRnd rnd) (count lo hi : ℤ) (hlh : lo ≤ hi)
    (hbig : hi - lo + 1 < count) (fuel i : ℕ) :
    generateUniqueNumbers rnd count lo hi fuel i = none := by
  unfold generateUniqueNumbers
  rw [generateUniqueNumbersAux_none rnd h count lo hi hlh hbig fuel i []
    List.nodup_nil (by simp)]

/-- Witness for the amended C4 at `stepRnd`, `count = 2`, pool `[1, 1]`. -/
theorem generateUniqueNumbers_diverges_on_small_pool_witness :
    validRnd stepRnd ∧ (1 : ℤ) ≤ 1 ∧ (1 : ℤ) - 1 + 1 < 2 ∧
      generateUniqueNumbers stepRnd 2 1 1 3 0 = none :=
  ⟨validRnd_stepRnd, le_rfl, by norm_num,
    generateUniqueNumbers_diverges_on_small_pool stepRnd validRnd_stepRnd
      2 1 1 le_rfl (by norm_num) 3 0⟩

/-- C5: for every raw `Math.random()` output in `[0, 1)` and bounds
`lo ≤ hi`, `getRandomNumber` returns an integer inside `[lo, hi]`; in the
degenerate single-value range it always returns `5`. -/
theorem getRandomNumber_bounds (r : ℚ) (hr : validRandom r) (lo hi : ℤ)
    (hlh : lo ≤ hi) :
    (lo ≤ getRandomNumber r lo hi ∧ getRandomNumber r lo hi ≤ hi) ∧
      getRandomNumber r 5 5 = 5 := by
  refine ⟨getRandomNumber_mem r lo hi hr hlh, ?_⟩
  have h5 := getRandomNumber_mem r 5 5 hr le_rfl
  omega

/-- Witness for C5 at `r = 1/2`, bounds `[1, 3]`. -/
theorem getRandomNumber_bounds_witness :
    validRandom (1 / 2 : ℚ) ∧ (1 : ℤ) ≤ 3 ∧
      (((1 : ℤ) ≤ getRandomNumber (1 / 2) 1 3 ∧ getRandomNumber (1 / 2) 1 3 ≤ 3) ∧
        getRandomNumber (1 / 2) 5 5 = 5) :=
  ⟨⟨by norm_num, by norm_num⟩, by norm_num,
    getRandomNumber_bounds (1 / 2) ⟨by norm_num, by norm_num⟩ 1 3 (by norm_num)⟩

/-- C6: with the mocked randomness sequence `[5, 12, 23, 45, 67, 15, 3]`
(five unique-number draws, the special-number draw, then the
multiplier-index draw `3 ↦ powerPlayOptions[3] = 5`), the Powerball generator
returns `{numbers: [5, 12, 23, 45, 67], powerball: 15, powerPlay: 5}`. -/
theorem powerball_mock_sequence :
    generatePowerballTicket mockRnd 7 = some ⟨[5, 12, 23, 45, 67], 15, 5⟩ := by
  decide

/-- C7: the Unique Set Generator and both Ticket Assemblers are deterministic
in the randomness source: two runs fed samplers that agree draw-for-draw
produce identical outputs. -/
theorem generators_deterministic (r1 r2 : Rnd)
    (h : ∀ (i : ℕ) (lo hi : ℤ), r1 i lo hi = r2 i lo hi)
    (count lo hi : ℤ) (fuel i : ℕ) :
    generateUniqueNumbers r1 count lo hi fuel i =
        generateUniqueNumbers r2 count lo hi fuel i ∧
      generatePowerballTicket r1 fuel = generatePowerballTicket r2 fuel ∧
      generateMegaMillionsTicket r1 fuel = generateMegaMillionsTicket r2 fuel := by
  obtain rfl : r1 = r2 := funext fun a => funext fun b => funext fun c => h a b c
  exact ⟨rfl, rfl, rfl⟩

/-- Witness for C7: `mockRnd2` and `mockRnd` agree draw-for-draw, and the
generator runs over them coincide. -/
theorem generators_deterministic_witness :
    (∀ (i : ℕ) (lo hi : ℤ), mockRnd2 i lo hi = mockRnd i lo hi) ∧
      (generateUniqueNumbers mockRnd2 5 1 69 7 0 =
          generateUniqueNumbers mockRnd 5 1 69 7 0 ∧
        generatePowerballTicket mockRnd2 7 = generatePowerballTicket mockRnd 7 ∧
        generateMegaMillionsTicket mockRnd2 7 = generateMegaMillionsTicket mockRnd 7) :=
  ⟨fun i lo hi => add_zero (mockRnd i lo hi),
    generators_deterministic mockRnd2 mockRnd
      (fun i lo hi => add_zero (mockRnd i lo hi)) 5 1 69 7 0⟩

/-- C8: for every `count ≥ 0` and any sampler stream whatsoever, a
terminating run of `generateUniqueNumbers` returns exactly `count` elements
— never more. -/
theorem generateUniqueNumbers_length_exact (rnd : Rnd) (count : ℤ)
    (hc : 0 ≤ count) (lo hi : ℤ) (fuel i : ℕ) (l : List ℤ) (j : ℕ)
    (hg : generateUniqueNumbers rnd count lo hi fuel i = some (l, j)) :
    (l.length : ℤ) = count :=
  (generateUniqueNumbers_spec rnd count lo hi fuel i l j hg hc).2.2.1

/-- Witness for C8 at the bounds-ignoring stream `mockRnd`, `count = 5`. -/
theorem generateUniqueNumbers_length_exact_witness :
    (0 : ℤ) ≤ 5 ∧
      generateUniqueNumbers mockRnd 5 1 69 7 0 = some ([5, 12, 23, 45, 67], 5) ∧
      (([5, 12, 23, 45, 67] : List ℤ).length : ℤ) = 5 :=
  ⟨by norm_num, by decide,
    generateUniqueNumbers_length_exact mockRnd 5 (by norm_num) 1 69 7 0
      [5, 12, 23, 45, 67] 5 (by decide)⟩

/-- C9: for `count ≤ 0` and any bounds, `generateUniqueNumbers` returns the
empty sequence immediately: it succeeds even with zero fuel (no loop
iteration) and its returned next sampler index equals the starting index, so
no sampler draw is consumed. -/
theorem generateUniqueNumbers_nonpos_count (rnd : Rnd) (count lo hi : ℤ)
    (hc : count ≤ 0) (fuel i : ℕ) :
    generateUniqueNumbers rnd count lo hi fuel i = some ([], i) := by
  unfold generateUniqueNumbers
  rw [generateUniqueNumbersAux_eq,
    if_neg (by simp only [List.length_nil, Nat.cast_zero]; omega)]
  rfl

/-- Witness for C9 at `count = 0`, zero fuel. -/
theorem generateUniqueNumbers_nonpos_count_witness :
    (0 : ℤ) ≤ 0 ∧ generateUniqueNumbers mockRnd 0 1 69 0 0 = some ([], 0) :=
  ⟨le_rfl, generateUniqueNumbers_nonpos_count mockRnd 0 1 69 le_rfl 0 0⟩

/-- C10: in both generators, under a bounds-respecting sampler the
multiplier index drawn from `[0, length - 1]` is always in range: whenever
the unique-number stage terminates, the `Option`-returning option-list
indexing succeeds (its out-of-bounds branch is unreachable) and the
multiplier is an element of the option list. -/
theorem multiplier_index_safe (rnd : Rnd) (h : validRnd rnd) (fuel : ℕ) :
    (∀ (numbers : List ℤ) (j : ℕ),
        generateUniqueNumbers rnd 5 1 69 fuel 0 = some (numbers, j) →
        ∃ t, generatePowerballTicket rnd fuel = some t ∧
          t.powerPlay ∈ powerPlayOptions) ∧
    (∀ (numbers : List ℤ) (j : ℕ),
        generateUniqueNumbers rnd 5 1 70 fuel 0 = some (numbers, j) →
        ∃ t, generateMegaMillionsTicket rnd fuel = some t ∧
          t.megaplier ∈ megaplierOptions) := by
  constructor
  · intro numbers j heq
    obtain ⟨hlo, hhi⟩ := h (j + 1) 0 ((powerPlayOptions.length : ℤ) - 1)
      (by norm_num [powerPlayOptions])
    obtain ⟨pp, hsome, hmem⟩ := listIndex_isSome powerPlayOptions _ hlo hhi
    refine ⟨⟨numbers, rnd j 1 26, pp⟩, ?_, hmem⟩
    unfold generatePowerballTicket
    rw [heq]
    dsimp only
    rw [hsome]
  · intro numbers j heq
    obtain ⟨hlo, hhi⟩ := h (j + 1) 0 ((megaplierOptions.length : ℤ) - 1)
      (by norm_num [megaplierOptions])
    obtain ⟨mp, hsome, hmem⟩ := listIndex_isSome megaplierOptions _ hlo hhi
    refine ⟨⟨numbers, rnd j 1 25, mp⟩, ?_, hmem⟩
    unfold generateMegaMillionsTicket
    rw [heq]
    dsimp only
    rw [hsome]

/-- Witness for C10 at `stepRnd` with fuel 10. -/
theorem multiplier_index_safe_witness :
    validRnd stepRnd ∧
      ((∀ (numbers : List ℤ) (j : ℕ),
          generateUniqueNumbers stepRnd 5 1 69 10 0 = some (numbers, j) →
          ∃ t, generatePowerballTicket stepRnd 10 = some t ∧
            t.powerPlay ∈ powerPlayOptions) ∧
        (∀ (numbers : List ℤ) (j : ℕ),
          generateUniqueNumbers stepRnd 5 1 70 10 0 = some (numbers, j) →
          ∃ t, generateMegaMillionsTicket stepRnd 10 = some t ∧
            t.megaplier ∈ megaplierOptions)) :=
  ⟨validRnd_stepRnd, multiplier_index_safe stepRnd validRnd_stepRnd 10⟩
